import Mathlib

/-!
Shallow embedding of mp3fs's `Mp3Encoder` (src/codecs/mp3_encoder.cc), together
with spec-modelled versions of the collaborators it drives: the `Buffer` the
encoder writes into (repository code not present under src/) and the external
LAME / libid3tag backends, which the spec treats as capabilities.

Machine integers are modelled as `Nat`, with an explicit `% 2 ^ 64` (`u64`)
wherever the C++ computes in `size_t` / `uint64_t` and wrap-around is
observable.  Byte vectors are `List Nat`; metadata strings are `String`
(the latin1 / UCS-4 / UTF-8 conversions of libid3tag are injections between
representations of the same text and are modelled as the identity).
-/

/-- Value from LAME (`kMaxVbrFrameSize` in mp3_encoder.cc). -/
def kMaxVbrFrameSize : Nat := 2880

/-- `kMillisPerSec` in mp3_encoder.cc. -/
def kMillisPerSec : Nat := 1000

/-- Extra padding for buffers holding LAME output (`kBufferSlop`). -/
def kBufferSlop : Nat := 7200

/-- Modelled from the spec: the fixed length of the legacy ID3v1 trailer tag.
`kId3v1TagLength` is declared in the header mp3_encoder.h, which is not under
src/; the spec fixes it at 128 bytes ("read at the estimated end-128..end
returns the fixed-length legacy trailer tag bytes"). -/
def kId3v1TagLength : Nat := 128

/-- Truncation to 64 bits, the width of `size_t` / `uint64_t` in the source. -/
def u64 (n : Nat) : Nat := n % 2 ^ 64

/-- 64-bit wrapping subtraction, as performed on `size_t` operands
(requires `b ≤ 2 ^ 64`). -/
def sub64 (a b : Nat) : Nat := u64 (a + (2 ^ 64 - b))

/-- Modelled from the spec: the fixed metadata-field enumeration of coders.h
(not under src/).  The spec lists the fields title, artist, album, genre,
date, composer, performer, copyright, encoded-by, organization, conductor,
album-artist, encoder-name, track-length, track-number, track-total,
disc-number, disc-total; they are numbered here in that order. -/
def METATAG_TITLE : Nat := 0

def METATAG_ARTIST : Nat := 1

def METATAG_ALBUM : Nat := 2

def METATAG_GENRE : Nat := 3

def METATAG_DATE : Nat := 4

def METATAG_COMPOSER : Nat := 5

def METATAG_PERFORMER : Nat := 6

def METATAG_COPYRIGHT : Nat := 7

def METATAG_ENCODEDBY : Nat := 8

def METATAG_ORGANIZATION : Nat := 9

def METATAG_CONDUCTOR : Nat := 10

def METATAG_ALBUMARTIST : Nat := 11

def METATAG_ENCODER : Nat := 12

def METATAG_TRACKLENGTH : Nat := 13

def METATAG_TRACKNUMBER : Nat := 14

def METATAG_TRACKTOTAL : Nat := 15

def METATAG_DISCNUMBER : Nat := 16

def METATAG_DISCTOTAL : Nat := 17

/-- `Mp3Encoder::kMetatagMap`: the association from the metadata-field
enumeration to ID3 frame names. -/
def kMetatagMap : List (Nat × String) :=
  [(METATAG_TITLE, "TIT2"), (METATAG_ARTIST, "TPE1"),
   (METATAG_ALBUM, "TALB"), (METATAG_GENRE, "TCON"),
   (METATAG_DATE, "TDRC"), (METATAG_COMPOSER, "TCOM"),
   (METATAG_PERFORMER, "TOPE"), (METATAG_COPYRIGHT, "TCOP"),
   (METATAG_ENCODEDBY, "TENC"), (METATAG_ORGANIZATION, "TPUB"),
   (METATAG_CONDUCTOR, "TPE3"), (METATAG_ALBUMARTIST, "TPE2"),
   (METATAG_ENCODER, "TSSE"), (METATAG_TRACKLENGTH, "TLEN")]

/-- `ID3_FIELD_TEXTENCODING_UTF_8` of libid3tag. -/
def utf8Encoding : Nat := 3

/-- A libid3tag frame, as used by `set_text_tag`: field 0 is the text
encoding, field 1 the list of strings. -/
structure Id3Frame where
  name : String
  values : List String
  encoding : Nat
deriving DecidableEq, Repr

/-- The libid3tag tag handle: an ordered list of attached frames. -/
structure Id3Tag where
  frames : List Id3Frame
deriving DecidableEq, Repr

/-- `id3_tag_findframe(tag, name, 0)`: the first attached frame with the
given name. -/
def Id3Tag.findframe (t : Id3Tag) (nm : String) : Option Id3Frame :=
  t.frames.find? (fun f => f.name == nm)

/-- In-place mutation of the frame found by `id3_tag_findframe`: replace the
first frame carrying the given name. -/
def replaceFirstFrame : List Id3Frame → String → Id3Frame → List Id3Frame
  | [], _, _ => []
  | f :: fs, nm, fr =>
    if f.name == nm then fr :: fs else f :: replaceFirstFrame fs nm fr

/-- The LAME encoder handle: the stream parameters bound by the setters and
the values derived by `lame_init_params`. -/
structure LameState where
  num_samples : Nat
  in_samplerate : Nat
  num_channels : Nat
  out_samplerate : Nat
  totalframes : Nat
deriving DecidableEq, Repr

/-- The global `params` of mp3fs: the configuration fields read by
mp3_encoder.cc. -/
structure Params where
  vbr : Nat
  bitrate : Nat
  quality : Nat
  statcachesize : Nat
deriving DecidableEq, Repr

/-- The `Mp3Encoder` object state: its id3 tag handle, its LAME handle, and
the rendered ID3v2 size `id3size_`. -/
structure Mp3Encoder where
  id3tag : Id3Tag
  lame : LameState
  id3size : Nat
deriving DecidableEq, Repr

/-- The merge performed by the track/disc branch of `set_text_tag`: the new
component `v` is printed before the existing value for a number key
(`tempstr << value << lat`) and after a literal "/" for a total key
(`tempstr << lat << "/" << value`). -/
def merge_numtotal (isNumber : Bool) (v lat : String) : String :=
  if isNumber then v ++ lat else lat ++ "/" ++ v

/-- The track/disc half of `set_text_tag`: find or attach the combined frame,
take its existing first string (empty for a fresh frame), and replace its
strings with the single merged value via `id3_field_setstrings`. -/
def set_combined_tag (enc : Mp3Encoder) (tagname : String) (isNumber : Bool)
    (v : String) : Mp3Encoder :=
  match enc.id3tag.findframe tagname with
  | some fr =>
    { enc with id3tag := ⟨replaceFirstFrame enc.id3tag.frames tagname
        { fr with values := [merge_numtotal isNumber v (fr.values.getD 0 "")] }⟩ }
  | none =>
    { enc with id3tag := ⟨enc.id3tag.frames ++
        [⟨tagname, [merge_numtotal isNumber v ""], utf8Encoding⟩]⟩ }

/-- `Mp3Encoder::set_text_tag`.  A null value pointer is `none`.  The mapped
keys append a string to the (found or newly attached) frame via
`id3_field_addstring`; the four track/disc keys merge number and total into a
single combined string (`set_combined_tag`). -/
def set_text_tag (enc : Mp3Encoder) (key : Nat) (value : Option String) :
    Mp3Encoder :=
  match value with
  | none => enc
  | some v =>
    match List.lookup key kMetatagMap with
    | some tagname =>
      match enc.id3tag.findframe tagname with
      | some fr =>
        { enc with id3tag := ⟨replaceFirstFrame enc.id3tag.frames tagname
            { fr with values := fr.values ++ [v] }⟩ }
      | none =>
        { enc with id3tag :=
            ⟨enc.id3tag.frames ++ [⟨tagname, [v], utf8Encoding⟩]⟩ }
    | none =>
      if key = METATAG_TRACKNUMBER ∨ key = METATAG_TRACKTOTAL ∨
          key = METATAG_DISCNUMBER ∨ key = METATAG_DISCTOTAL then
        set_combined_tag enc
          (if key = METATAG_TRACKNUMBER ∨ key = METATAG_TRACKTOTAL then
            "TRCK"
          else
            "TPOS")
          (decide (key = METATAG_TRACKNUMBER ∨ key = METATAG_DISCNUMBER)) v
      else enc

/-- `PACKAGE_NAME`, from the build configuration of the repository. -/
def PACKAGE_NAME : String := "mp3fs"

/-- The `Mp3Encoder` constructor: a fresh tag handle, a fresh LAME handle,
and the encoder-name tag set to the package name.  (The VBR/bitrate settings
pushed into the LAME handle are the `Params` passed to the other
operations.) -/
def Mp3Encoder.init : Mp3Encoder :=
  set_text_tag ⟨⟨[]⟩, ⟨0, 0, 0, 0, 0⟩, 0⟩ METATAG_ENCODER (some PACKAGE_NAME)

/-- Modelled from the spec: `lame_init_params` (an external LAME call) fixes
the derived stream values.  The spec notes resampling is not otherwise
performed, so the output sample rate equals the input sample rate, and
"encoded frames carry 1152 samples each", so the total frame count is the
sample count divided by 1152, rounded up. -/
def lame_init_params (l : LameState) : LameState :=
  { l with out_samplerate := l.in_samplerate,
           totalframes := (l.num_samples + 1151) / 1152 }

/-- `Mp3Encoder::set_stream_params`: bind the stream parameters into LAME,
initialise the encoder, and embed the track length in milliseconds
(`num_samples * kMillisPerSec / sample_rate`, computed in `uint64_t`) into
the ID3 tag.  The external `lame_init_params` is modelled as succeeding. -/
def set_stream_params (enc : Mp3Encoder) (num_samples sample_rate channels : Nat) :
    Mp3Encoder × Int :=
  let l := lame_init_params
    { enc.lame with
        num_samples := num_samples
        in_samplerate := sample_rate
        num_channels := channels }
  let enc := { enc with lame := l }
  let enc := set_text_tag enc METATAG_TRACKLENGTH
      (some (Nat.repr (u64 (num_samples * kMillisPerSec) / sample_rate)))
  (enc, 0)

/-- `Mp3Encoder::calculate_size`: the sum of the ID3v2 size, the ID3v1 size,
and the raw MP3 data size `totalframes * 144000 * bitrate / samplerate`,
where the divisor is the input sample rate for VBR and the output sample
rate otherwise.  All arithmetic is `size_t` / `uint64_t`. -/
def calculate_size (p : Params) (enc : Mp3Encoder) : Nat :=
  if p.vbr ≠ 0 then
    u64 (enc.id3size + kId3v1TagLength + kMaxVbrFrameSize +
      u64 (u64 (enc.lame.totalframes * 144000) * p.bitrate) /
        enc.lame.in_samplerate)
  else
    u64 (enc.id3size + kId3v1TagLength +
      u64 (u64 (enc.lame.totalframes * 144000) * p.bitrate) /
        enc.lame.out_samplerate)

/-- Modelled from the spec: `getattr` asks the Cache for the Transcoder's
current size estimate; before encoding starts this is the encoder's
`calculate_size()`. -/
def getattr_size (p : Params) (enc : Mp3Encoder) : Nat := calculate_size p enc

/-- One operation applied to the `Buffer`, recorded so that theorems can
speak about which operations an encoder call performed. -/
inductive BufOp where
  | append : List Nat → Bool → BufOp
  | writeEnd : List Nat → Nat → BufOp
  | writeTo : List Nat → Nat → BufOp
  | truncate : BufOp
  | extend : BufOp
deriving DecidableEq, Repr

/-- Modelled from the spec: the Buffer, a growable byte store with current
bytes `data` (length L) and target length `target` (T), plus the log of
operations applied to it. -/
structure Buffer where
  data : List Nat
  target : Nat
  log : List BufOp
deriving DecidableEq, Repr

/-- Modelled from the spec: `append(bytes)` extends at the logical end.  The
boolean mirrors the second argument of `Buffer::write` at the call sites; it
does not affect the stored bytes. -/
def Buffer.write (b : Buffer) (bytes : List Nat) (flag : Bool) : Buffer :=
  { b with data := b.data ++ bytes, log := b.log ++ [BufOp.append bytes flag] }

/-- Place `bytes` at absolute offset `off`, extending with zero filler if the
offset is beyond the current end (the spec's invariant that no read observes
uninitialized bytes). -/
def placeAt (data bytes : List Nat) (off : Nat) : List Nat :=
  (data ++ List.replicate (off - data.length) 0).take off ++ bytes ++
    data.drop (off + bytes.length)

/-- Modelled from the spec: the Buffer's end-relative patch write.  The
encoder passes the absolute start offset (file size minus trailer length), so
the parameter is the absolute offset at which the block lands. -/
def Buffer.write_end (b : Buffer) (bytes : List Nat) (off : Nat) : Buffer :=
  { b with data := placeAt b.data bytes off,
           log := b.log ++ [BufOp.writeEnd bytes off] }

/-- Modelled from the spec: `write_to(bytes, absolute_offset)`, overwriting at
a fixed absolute offset already within L. -/
def Buffer.write_to (b : Buffer) (bytes : List Nat) (off : Nat) : Buffer :=
  { b with data := placeAt b.data bytes off,
           log := b.log ++ [BufOp.writeTo bytes off] }

/-- Modelled from the spec: `truncate()` sets L = T exactly, discarding any
slack past T. -/
def Buffer.truncate (b : Buffer) : Buffer :=
  { b with data := b.data.take b.target, log := b.log ++ [BufOp.truncate] }

/-- Modelled from the spec: `extend()` pads with zero bytes until L = T. -/
def Buffer.extend (b : Buffer) : Buffer :=
  { b with data := b.data ++ List.replicate (b.target - b.data.length) 0,
           log := b.log ++ [BufOp.extend] }

/-- The file size used by `render_tag` for the ID3v1 position: the given
`file_size`, or `calculate_size()` when the given value is zero. -/
def render_tag_size (p : Params) (enc : Mp3Encoder) (file_size : Nat) : Nat :=
  if file_size = 0 then calculate_size p enc else file_size

/-- `Mp3Encoder::render_tag`: record the rendered ID3v2 size, append the
rendered ID3v2 tag (`tag24`, produced by the external `id3_tag_render`) at the
start of the Buffer, then write the fixed-length ID3v1 tag (`tag1`) at
`file_size - kId3v1TagLength` (a `size_t` subtraction). -/
def render_tag (p : Params) (enc : Mp3Encoder) (buf : Buffer)
    (tag24 tag1 : List Nat) (file_size : Nat) : Mp3Encoder × Buffer × Int :=
  let enc := { enc with id3size := tag24.length }
  let buf := buf.write tag24 true
  let fs := render_tag_size p enc file_size
  let buf := buf.write_end tag1 (sub64 fs kId3v1TagLength)
  (enc, buf, 0)

/-- Wrap an integer into the range of a 32-bit signed `int`. -/
def int32wrap (z : Int) : Int := (z + 2 ^ 31) % 2 ^ 32 - 2 ^ 31

/-- The rescale `data[c][i] << (sizeof(int) * 8 - sample_size)` performed by
`encode_pcm_data` before handing samples to LAME. -/
def pcm_scaled (sample_size : Nat) (x : Int) : Int :=
  int32wrap (x * 2 ^ (32 - sample_size))

/-- The left-channel buffer handed to `lame_encode_buffer_int`. -/
def lbufOf (sample_size : Nat) (dataL : List Int) : List Int :=
  dataL.map (pcm_scaled sample_size)

/-- The right-channel buffer handed to `lame_encode_buffer_int`: rescaled
samples for more than one channel, zero-initialised otherwise. -/
def rbufOf (channels sample_size : Nat) (dataL dataR : List Int) : List Int :=
  if 1 < channels then (dataR.take dataL.length).map (pcm_scaled sample_size)
  else List.replicate dataL.length 0

/-- `Mp3Encoder::encode_pcm_data`: rescale the PCM block, call the external
`lame_encode_buffer_int` (modelled as a capability returning `none` on a
negative length), and on success append exactly the reported output bytes to
the Buffer. -/
def encode_pcm_data (enc : Mp3Encoder) (buf : Buffer) (dataL dataR : List Int)
    (sample_size : Nat)
    (lame_encode : List Int → List Int → Option (List Nat)) : Buffer × Int :=
  match lame_encode (lbufOf sample_size dataL)
      (rbufOf enc.lame.num_channels sample_size dataL dataR) with
  | none => (buf, -1)
  | some out => (buf.write out false, 0)

/-- `Mp3Encoder::encode_finish`: flush LAME's retained samples (the external
`lame_encode_flush`, modelled as a capability; `none` is a negative length),
append the flushed bytes, truncate or extend the Buffer depending on
`params.statcachesize`, and for VBR patch the LAME tag frame (`vbrTagData`,
of reported size `vbrTagSize`) at `id3size_` via `write_to`. -/
def encode_finish (p : Params) (enc : Mp3Encoder) (buf : Buffer)
    (flushResult : Option (List Nat)) (vbrTagSize : Nat)
    (vbrTagData : List Nat) : Buffer × Int :=
  match flushResult with
  | none => (buf, -1)
  | some fl =>
    let buf1 := buf.write fl (decide (0 < p.statcachesize))
    let buf2 := if 0 < p.statcachesize then buf1.truncate else buf1.extend
    if p.vbr ≠ 0 then
      if kMaxVbrFrameSize < vbrTagSize then (buf2, -1)
      else (buf2.write_to vbrTagData enc.id3size, (fl.length : Int))
    else (buf2, (fl.length : Int))

/-- The strings held by the frame named `nm`, or `[]` when no such frame is
attached. -/
def tagValuesD (enc : Mp3Encoder) (nm : String) : List String :=
  ((enc.id3tag.findframe nm).map Id3Frame.values).getD []

/-- Discriminator for `write_to` operations in a Buffer log. -/
def isWriteTo : BufOp → Bool
  | BufOp.writeTo _ _ => true
  | _ => false

/-- Discriminator for the two finalisation resize operations. -/
def isResizeOp : BufOp → Bool
  | BufOp.truncate => true
  | BufOp.extend => true
  | _ => false

/-! Helper lemmas. -/

theorem u64_eq_of_lt {n : Nat} (h : n < 2 ^ 64) : u64 n = n :=
  Nat.mod_eq_of_lt h

theorem sub64_eq {a b : Nat} (hb : b ≤ a) (ha : a < 2 ^ 64) : sub64 a b = a - b := by
  have h1 : a + (2 ^ 64 - b) = (a - b) + 2 ^ 64 := by omega
  unfold sub64 u64
  rw [h1, Nat.add_mod_right]
  exact Nat.mod_eq_of_lt (by omega)

theorem set_combined_tag_lame (enc : Mp3Encoder) (tagname : String)
    (isNumber : Bool) (v : String) :
    (set_combined_tag enc tagname isNumber v).lame = enc.lame := by
  unfold set_combined_tag
  cases enc.id3tag.findframe tagname <;> rfl

theorem set_combined_tag_id3size (enc : Mp3Encoder) (tagname : String)
    (isNumber : Bool) (v : String) :
    (set_combined_tag enc tagname isNumber v).id3size = enc.id3size := by
  unfold set_combined_tag
  cases enc.id3tag.findframe tagname <;> rfl

theorem set_text_tag_lame (enc : Mp3Encoder) (k : Nat) (v : Option String) :
    (set_text_tag enc k v).lame = enc.lame := by
  cases v with
  | none => rfl
  | some v =>
    cases hl : List.lookup k kMetatagMap with
    | some nm =>
      cases hf : enc.id3tag.findframe nm <;> simp only [set_text_tag, hl, hf]
    | none =>
      by_cases h4 : k = METATAG_TRACKNUMBER ∨ k = METATAG_TRACKTOTAL ∨
          k = METATAG_DISCNUMBER ∨ k = METATAG_DISCTOTAL
      · simp only [set_text_tag, hl, if_pos h4, set_combined_tag_lame]
      · simp only [set_text_tag, hl, if_neg h4]

theorem set_text_tag_id3size (enc : Mp3Encoder) (k : Nat) (v : Option String) :
    (set_text_tag enc k v).id3size = enc.id3size := by
  cases v with
  | none => rfl
  | some v =>
    cases hl : List.lookup k kMetatagMap with
    | some nm =>
      cases hf : enc.id3tag.findframe nm <;> simp only [set_text_tag, hl, hf]
    | none =>
      by_cases h4 : k = METATAG_TRACKNUMBER ∨ k = METATAG_TRACKTOTAL ∨
          k = METATAG_DISCNUMBER ∨ k = METATAG_DISCTOTAL
      · simp only [set_text_tag, hl, if_pos h4, set_combined_tag_id3size]
      · simp only [set_text_tag, hl, if_neg h4]

theorem find?_replaceFirstFrame (l : List Id3Frame) (nm : String) (fr fr' : Id3Frame)
    (h : l.find? (fun f => f.name == nm) = some fr) (h' : fr'.name = nm) :
    (replaceFirstFrame l nm fr').find? (fun f => f.name == nm) = some fr' := by
  induction l with
  | nil => simp [List.find?] at h
  | cons f fs ih =>
    by_cases hc : (f.name == nm) = true
    · simp only [replaceFirstFrame, hc, if_true, List.find?]
      simp [h']
    · simp only [replaceFirstFrame, hc, if_false, Bool.false_eq_true, if_neg]
      simp only [List.find?, hc] at h
      simp only [List.find?, hc]
      exact ih h

theorem find?_append_singleton (l : List Id3Frame) (nm : String) (fr : Id3Frame)
    (h : l.find? (fun f => f.name == nm) = none) (h' : fr.name = nm) :
    (l ++ [fr]).find? (fun f => f.name == nm) = some fr := by
  rw [List.find?_append, h]
  simp [List.find?, h']

theorem set_text_tag_mapped (enc : Mp3Encoder) (k : Nat) (nm : String) (v : String)
    (h : List.lookup k kMetatagMap = some nm) :
    tagValuesD (set_text_tag enc k (some v)) nm = tagValuesD enc nm ++ [v] := by
  cases hf : enc.id3tag.findframe nm with
  | some fr =>
    have hfl : List.find? (fun f => f.name == nm) enc.id3tag.frames = some fr := hf
    have hp := List.find?_some hfl
    have hname : fr.name = nm := eq_of_beq hp
    simp only [set_text_tag, h, tagValuesD, Id3Tag.findframe, hfl]
    rw [find?_replaceFirstFrame enc.id3tag.frames nm fr
      { fr with values := fr.values ++ [v] } hfl hname]
    rfl
  | none =>
    have hfl : List.find? (fun f => f.name == nm) enc.id3tag.frames = none := hf
    simp only [set_text_tag, h, tagValuesD, Id3Tag.findframe, hfl]
    rw [find?_append_singleton enc.id3tag.frames nm
      ⟨nm, [v], utf8Encoding⟩ hfl rfl]
    rfl

/-- C9: `set_text_tag` mutates nothing when the value pointer is null or the
key is neither in the field-to-frame-name map nor one of the four
track/disc number-or-total keys: the encoder state is returned unchanged. -/
theorem c9_null_or_unknown_noop (enc : Mp3Encoder) (k : Nat) (v : Option String)
    (h : v = none ∨ (List.lookup k kMetatagMap = none ∧
      ¬(k = METATAG_TRACKNUMBER ∨ k = METATAG_TRACKTOTAL ∨
        k = METATAG_DISCNUMBER ∨ k = METATAG_DISCTOTAL))) :
    set_text_tag enc k v = enc := by
  rcases h with h | ⟨hl, hk⟩
  · subst h; rfl
  · cases v with
    | none => rfl
    | some v =>
      unfold set_text_tag
      rw [hl]
      simp [hk]

/-- Witness for C9: a null value and an unrecognized key both leave a
concrete encoder unchanged. -/
theorem c9_null_or_unknown_noop_witness :
    set_text_tag Mp3Encoder.init METATAG_TITLE none = Mp3Encoder.init ∧
    set_text_tag Mp3Encoder.init 99 (some "x") = Mp3Encoder.init :=
  ⟨c9_null_or_unknown_noop Mp3Encoder.init METATAG_TITLE none (Or.inl rfl),
   c9_null_or_unknown_noop Mp3Encoder.init 99 (some "x")
     (Or.inr ⟨by decide, by decide⟩)⟩

/-- C8: for a key in the field-to-frame-name map, successive `set_text_tag`
calls accumulate all given values on that field's frame, losing none. -/
theorem c8_text_tag_multimap (enc : Mp3Encoder) (k : Nat) (nm : String)
    (vs : List String) (h : List.lookup k kMetatagMap = some nm) :
    tagValuesD (vs.foldl (fun e v => set_text_tag e k (some v)) enc) nm
      = tagValuesD enc nm ++ vs := by
  induction vs generalizing enc with
  | nil => simp
  | cons v vs ih =>
    simp only [List.foldl_cons]
    rw [ih (set_text_tag enc k (some v)), set_text_tag_mapped enc k nm v h,
      List.append_assoc]
    rfl

/-- Witness for C8: two artist values accumulate on the TPE1 frame. -/
theorem c8_text_tag_multimap_witness :
    tagValuesD (["a", "b"].foldl
        (fun e v => set_text_tag e METATAG_ARTIST (some v)) Mp3Encoder.init)
        "TPE1"
      = tagValuesD Mp3Encoder.init "TPE1" ++ ["a", "b"] :=
  c8_text_tag_multimap Mp3Encoder.init METATAG_ARTIST "TPE1" ["a", "b"] rfl

theorem findframe_set_combined_absent (enc : Mp3Encoder) (tagname : String)
    (isNumber : Bool) (v : String) (h : enc.id3tag.findframe tagname = none) :
    (set_combined_tag enc tagname isNumber v).id3tag.findframe tagname
      = some ⟨tagname, [merge_numtotal isNumber v ""], utf8Encoding⟩ := by
  have hfl : List.find? (fun f => f.name == tagname) enc.id3tag.frames = none := h
  simp only [set_combined_tag, Id3Tag.findframe, hfl]
  exact find?_append_singleton enc.id3tag.frames tagname
    ⟨tagname, [merge_numtotal isNumber v ""], utf8Encoding⟩ hfl rfl

theorem findframe_set_combined_found (enc : Mp3Encoder) (tagname : String)
    (isNumber : Bool) (v : String) (fr : Id3Frame)
    (h : enc.id3tag.findframe tagname = some fr) :
    (set_combined_tag enc tagname isNumber v).id3tag.findframe tagname
      = some { fr with
          values := [merge_numtotal isNumber v (fr.values.getD 0 "")] } := by
  have hfl : List.find? (fun f => f.name == tagname) enc.id3tag.frames = some fr := h
  have hp := List.find?_some hfl
  have hname : fr.name = tagname := eq_of_beq hp
  simp only [set_combined_tag, Id3Tag.findframe, hfl]
  exact find?_replaceFirstFrame enc.id3tag.frames tagname fr _ hfl hname

theorem set_text_tag_tracknumber (enc : Mp3Encoder) (n : String) :
    set_text_tag enc METATAG_TRACKNUMBER (some n)
      = set_combined_tag enc "TRCK" true n := rfl

theorem set_text_tag_tracktotal (enc : Mp3Encoder) (t : String) :
    set_text_tag enc METATAG_TRACKTOTAL (some t)
      = set_combined_tag enc "TRCK" false t := rfl

theorem set_text_tag_discnumber (enc : Mp3Encoder) (n : String) :
    set_text_tag enc METATAG_DISCNUMBER (some n)
      = set_combined_tag enc "TPOS" true n := rfl

theorem set_text_tag_disctotal (enc : Mp3Encoder) (t : String) :
    set_text_tag enc METATAG_DISCTOTAL (some t)
      = set_combined_tag enc "TPOS" false t := rfl

/-- C7: setting the track number and the track total via `set_text_tag`, in
either order, leaves the combined TRCK frame holding the number, a literal
"/", then the total; likewise for the disc pair on TPOS, so the two set
orders commute. -/
theorem c7_track_disc_merge (enc : Mp3Encoder) (n t dn dt : String)
    (hT : enc.id3tag.findframe "TRCK" = none)
    (hP : enc.id3tag.findframe "TPOS" = none) :
    tagValuesD (set_text_tag (set_text_tag enc METATAG_TRACKNUMBER (some n))
        METATAG_TRACKTOTAL (some t)) "TRCK" = [n ++ "/" ++ t]
    ∧ tagValuesD (set_text_tag (set_text_tag enc METATAG_TRACKTOTAL (some t))
        METATAG_TRACKNUMBER (some n)) "TRCK" = [n ++ "/" ++ t]
    ∧ tagValuesD (set_text_tag (set_text_tag enc METATAG_DISCNUMBER (some dn))
        METATAG_DISCTOTAL (some dt)) "TPOS" = [dn ++ "/" ++ dt]
    ∧ tagValuesD (set_text_tag (set_text_tag enc METATAG_DISCTOTAL (some dt))
        METATAG_DISCNUMBER (some dn)) "TPOS" = [dn ++ "/" ++ dt] := by
  refine ⟨?_, ?_, ?_, ?_⟩
  · rw [set_text_tag_tracknumber, set_text_tag_tracktotal]
    have h1 := findframe_set_combined_absent enc "TRCK" true n hT
    have h2 := findframe_set_combined_found _ "TRCK" false t _ h1
    unfold tagValuesD
    rw [h2]
    simp [merge_numtotal, String.append_empty, String.append_assoc]
  · rw [set_text_tag_tracknumber, set_text_tag_tracktotal]
    have h1 := findframe_set_combined_absent enc "TRCK" false t hT
    have h2 := findframe_set_combined_found _ "TRCK" true n _ h1
    unfold tagValuesD
    rw [h2]
    simp [merge_numtotal, String.empty_append, String.append_assoc]
  · rw [set_text_tag_discnumber, set_text_tag_disctotal]
    have h1 := findframe_set_combined_absent enc "TPOS" true dn hP
    have h2 := findframe_set_combined_found _ "TPOS" false dt _ h1
    unfold tagValuesD
    rw [h2]
    simp [merge_numtotal, String.append_empty, String.append_assoc]
  · rw [set_text_tag_discnumber, set_text_tag_disctotal]
    have h1 := findframe_set_combined_absent enc "TPOS" false dt hP
    have h2 := findframe_set_combined_found _ "TPOS" true dn _ h1
    unfold tagValuesD
    rw [h2]
    simp [merge_numtotal, String.empty_append, String.append_assoc]

/-- Witness for C7 on a concrete fresh encoder. -/
theorem c7_track_disc_merge_witness :
    tagValuesD (set_text_tag (set_text_tag Mp3Encoder.init
        METATAG_TRACKNUMBER (some "3")) METATAG_TRACKTOTAL (some "12")) "TRCK"
      = ["3" ++ "/" ++ "12"]
    ∧ tagValuesD (set_text_tag (set_text_tag Mp3Encoder.init
        METATAG_TRACKTOTAL (some "12")) METATAG_TRACKNUMBER (some "3")) "TRCK"
      = ["3" ++ "/" ++ "12"]
    ∧ tagValuesD (set_text_tag (set_text_tag Mp3Encoder.init
        METATAG_DISCNUMBER (some "1")) METATAG_DISCTOTAL (some "2")) "TPOS"
      = ["1" ++ "/" ++ "2"]
    ∧ tagValuesD (set_text_tag (set_text_tag Mp3Encoder.init
        METATAG_DISCTOTAL (some "2")) METATAG_DISCNUMBER (some "1")) "TPOS"
      = ["1" ++ "/" ++ "2"] :=
  c7_track_disc_merge Mp3Encoder.init "3" "12" "1" "2" (by decide) (by decide)

/-- C6 (amended): for a stream bound via `set_stream_params` with `R > 0` and
`S * 1000` representable in 64 bits, the value appended to the TLEN frame is
the decimal rendering of `S * 1000 / R`.  (For larger `S` the code wraps the
product modulo `2 ^ 64` before dividing.) -/
theorem c6_track_length_tag (enc : Mp3Encoder) (S R ch : Nat) (hR : 0 < R)
    (hfit : S * kMillisPerSec < 2 ^ 64) :
    tagValuesD (set_stream_params enc S R ch).1 "TLEN"
      = tagValuesD enc "TLEN" ++ [Nat.repr (S * kMillisPerSec / R)] := by
  unfold set_stream_params
  dsimp only
  rw [u64_eq_of_lt hfit]
  rw [set_text_tag_mapped _ METATAG_TRACKLENGTH "TLEN" _ (by decide)]
  rfl

/-- Witness for C6 at a one-second 44100 Hz stream. -/
theorem c6_track_length_tag_witness :
    tagValuesD (set_stream_params Mp3Encoder.init 44100 44100 2).1 "TLEN"
      = tagValuesD Mp3Encoder.init "TLEN"
        ++ [Nat.repr (44100 * kMillisPerSec / 44100)] :=
  c6_track_length_tag Mp3Encoder.init 44100 44100 2 (by decide) (by decide)

/-- C6 as stated is false for every sample count: at `S = 2 ^ 61` samples and
`R = 1000` Hz the product `S * 1000` wraps to zero in `uint64_t`, so the
embedded TLEN value is "0" instead of `S * 1000 / R` milliseconds. -/
theorem c6_claim_false :
    tagValuesD (set_stream_params Mp3Encoder.init (2 ^ 61) 1000 2).1 "TLEN"
      = ["0"]
    ∧ Nat.repr (2 ^ 61 * kMillisPerSec / 1000) ≠ "0" :=
  ⟨by decide, by decide⟩

/-- A concrete fixed bit-rate configuration: 128 kbps, quality 5, no stats
cache. -/
def pFixed : Params := ⟨0, 128, 5, 0⟩

/-- A concrete variable bit-rate configuration: VBR with 128 kbps nominal
bit-rate and a stats cache. -/
def pVbr : Params := ⟨1, 128, 5, 2⟩

theorem set_stream_params_lame (enc : Mp3Encoder) (S R ch : Nat) :
    (set_stream_params enc S R ch).1.lame
      = lame_init_params { enc.lame with
          num_samples := S, in_samplerate := R, num_channels := ch } := by
  unfold set_stream_params
  dsimp only
  rw [set_text_tag_lame]

theorem set_stream_params_id3size (enc : Mp3Encoder) (S R ch : Nat) :
    (set_stream_params enc S R ch).1.id3size = enc.id3size := by
  unfold set_stream_params
  dsimp only
  rw [set_text_tag_id3size]

/-- C1 (amended): for a fixed bit-rate configuration, after the stream
parameters are bound, `calculate_size()` is the tag overhead (rendered ID3v2
size plus the fixed ID3v1 length) plus `F * 144000 * B / output_sample_rate`,
where `F` is the total frame count derived from the source sample count `S`
at 1152 samples per frame (not the sample count itself); and `getattr`'s size
answer before encoding starts equals `calculate_size()`. -/
theorem c1_fixed_size_formula (p : Params) (enc : Mp3Encoder) (S R ch : Nat)
    (hvbr : p.vbr = 0) (hR : 0 < R)
    (h1 : (S + 1151) / 1152 * 144000 < 2 ^ 64)
    (h2 : (S + 1151) / 1152 * 144000 * p.bitrate < 2 ^ 64)
    (h3 : enc.id3size + kId3v1TagLength
        + (S + 1151) / 1152 * 144000 * p.bitrate / R < 2 ^ 64) :
    calculate_size p (set_stream_params enc S R ch).1
      = (set_stream_params enc S R ch).1.id3size + kId3v1TagLength
        + (S + 1151) / 1152 * 144000 * p.bitrate / R
    ∧ getattr_size p (set_stream_params enc S R ch).1
      = calculate_size p (set_stream_params enc S R ch).1 := by
  constructor
  · unfold calculate_size
    rw [if_neg (by simp [hvbr])]
    rw [set_stream_params_lame, set_stream_params_id3size]
    dsimp only [lame_init_params]
    rw [u64_eq_of_lt h1, u64_eq_of_lt h2, u64_eq_of_lt h3]
  · rfl

/-- Witness for C1 at 115200 samples (100 frames), 44100 Hz, 128 kbps. -/
theorem c1_fixed_size_formula_witness :
    calculate_size pFixed (set_stream_params Mp3Encoder.init 115200 44100 2).1
      = (set_stream_params Mp3Encoder.init 115200 44100 2).1.id3size
        + kId3v1TagLength
        + (115200 + 1151) / 1152 * 144000 * pFixed.bitrate / 44100
    ∧ getattr_size pFixed (set_stream_params Mp3Encoder.init 115200 44100 2).1
      = calculate_size pFixed
          (set_stream_params Mp3Encoder.init 115200 44100 2).1 :=
  c1_fixed_size_formula pFixed Mp3Encoder.init 115200 44100 2 rfl (by decide)
    (by decide) (by decide) (by decide)

/-- C1 as stated is false: with `N` the total source sample count (115200
here), the fixed bit-rate `calculate_size()` does not equal tag overhead plus
`N * 144000 * B / output_sample_rate`; the code multiplies the frame count
(totalframes), not the sample count. -/
theorem c1_claim_false :
    calculate_size pFixed (set_stream_params Mp3Encoder.init 115200 44100 2).1
      ≠ (set_stream_params Mp3Encoder.init 115200 44100 2).1.id3size
        + kId3v1TagLength
        + 115200 * 144000 * pFixed.bitrate / 44100 := by decide

/-- C2 (amended): for a variable bit-rate configuration, after the stream
parameters are bound, `calculate_size()` is the tag overhead plus the fixed
maximum-frame slack `kMaxVbrFrameSize` plus `F * 144000 * B /
input_sample_rate`, where `F` is the total frame count derived from the
source sample count `S` at 1152 samples per frame (not the sample count
itself); the divisor is the input sample rate, unlike the fixed bit-rate
branch which divides by the output sample rate. -/
theorem c2_vbr_size_formula (p : Params) (enc : Mp3Encoder) (S R ch : Nat)
    (hvbr : p.vbr ≠ 0) (hR : 0 < R)
    (h1 : (S + 1151) / 1152 * 144000 < 2 ^ 64)
    (h2 : (S + 1151) / 1152 * 144000 * p.bitrate < 2 ^ 64)
    (h3 : enc.id3size + kId3v1TagLength + kMaxVbrFrameSize
        + (S + 1151) / 1152 * 144000 * p.bitrate / R < 2 ^ 64) :
    calculate_size p (set_stream_params enc S R ch).1
      = (set_stream_params enc S R ch).1.id3size + kId3v1TagLength
        + kMaxVbrFrameSize
        + (S + 1151) / 1152 * 144000 * p.bitrate / R := by
  unfold calculate_size
  rw [if_pos hvbr]
  rw [set_stream_params_lame, set_stream_params_id3size]
  dsimp only [lame_init_params]
  rw [u64_eq_of_lt h1, u64_eq_of_lt h2, u64_eq_of_lt h3]

/-- Witness for C2 at 115200 samples (100 frames), 44100 Hz, 128 kbps VBR. -/
theorem c2_vbr_size_formula_witness :
    calculate_size pVbr (set_stream_params Mp3Encoder.init 115200 44100 2).1
      = (set_stream_params Mp3Encoder.init 115200 44100 2).1.id3size
        + kId3v1TagLength + kMaxVbrFrameSize
        + (115200 + 1151) / 1152 * 144000 * pVbr.bitrate / 44100 :=
  c2_vbr_size_formula pVbr Mp3Encoder.init 115200 44100 2 (by decide)
    (by decide) (by decide) (by decide) (by decide)

/-- C2 as stated is false: with `N` the total source sample count (115200
here), the variable bit-rate `calculate_size()` does not equal tag overhead
plus slack plus `N * 144000 * B / input_sample_rate`; the code multiplies the
frame count (totalframes), not the sample count. -/
theorem c2_claim_false :
    calculate_size pVbr (set_stream_params Mp3Encoder.init 115200 44100 2).1
      ≠ (set_stream_params Mp3Encoder.init 115200 44100 2).1.id3size
        + kId3v1TagLength + kMaxVbrFrameSize
        + 115200 * 144000 * pVbr.bitrate / 44100 := by decide

theorem placeAt_prefix_length (data : List Nat) (off : Nat) :
    ((data ++ List.replicate (off - data.length) 0).take off).length = off := by
  rw [List.length_take, List.length_append, List.length_replicate]
  omega

theorem getElem?_append_exact (l₁ l₂ : List Nat) (off i : Nat)
    (h : l₁.length = off) : (l₁ ++ l₂)[off + i]? = l₂[i]? := by
  rw [List.getElem?_append_right (by omega)]
  congr 1
  omega

theorem placeAt_get_bytes (data bytes : List Nat) (off i : Nat)
    (h : i < bytes.length) : (placeAt data bytes off)[off + i]? = bytes[i]? := by
  unfold placeAt
  rw [List.append_assoc,
    getElem?_append_exact _ _ off i (placeAt_prefix_length data off),
    List.getElem?_append_left h]

theorem placeAt_length_of_le (data bytes : List Nat) (off : Nat)
    (h : data.length ≤ off + bytes.length) :
    (placeAt data bytes off).length = off + bytes.length := by
  unfold placeAt
  rw [List.append_assoc, List.length_append, placeAt_prefix_length,
    List.length_append, List.drop_eq_nil_of_le h]
  simp

/-- C3: `render_tag` places the 128-byte legacy ID3v1 trailer so that it
occupies exactly the final `kId3v1TagLength` bytes of the virtual file: it
starts at the calculated-or-given file size minus 128 and ends at the file
size. -/
theorem c3_id3v1_trailer_placement (p : Params) (enc : Mp3Encoder)
    (buf : Buffer) (tag24 tag1 : List Nat) (file_size F : Nat)
    (hF : F = render_tag_size p { enc with id3size := tag24.length } file_size)
    (h1 : tag1.length = kId3v1TagLength)
    (hbuf : buf.data = [])
    (h128 : kId3v1TagLength ≤ F) (h64 : F < 2 ^ 64)
    (h24 : tag24.length ≤ F - kId3v1TagLength) :
    (render_tag p enc buf tag24 tag1 file_size).2.1.data.length = F
    ∧ ∀ i, i < kId3v1TagLength →
        (render_tag p enc buf tag24 tag1
          file_size).2.1.data[F - kId3v1TagLength + i]? = tag1[i]? := by
  unfold render_tag
  dsimp only
  rw [← hF, sub64_eq h128 h64]
  dsimp only [Buffer.write, Buffer.write_end]
  rw [hbuf]
  simp only [List.nil_append]
  constructor
  · rw [placeAt_length_of_le tag24 tag1 (F - kId3v1TagLength) (by omega)]
    omega
  · intro i hi
    exact placeAt_get_bytes tag24 tag1 (F - kId3v1TagLength) i (by omega)

/-- An empty Buffer fixture. -/
def bufEmpty : Buffer := ⟨[], 0, []⟩

/-- Witness for C3: with a 60-byte ID3v2 tag, a 128-byte ID3v1 tag and a
given file size of 5000, the Buffer ends exactly at 5000. -/
theorem c3_id3v1_trailer_placement_witness :
    (render_tag pFixed Mp3Encoder.init bufEmpty (List.replicate 60 1)
      (List.replicate 128 2) 5000).2.1.data.length = 5000 :=
  (c3_id3v1_trailer_placement pFixed Mp3Encoder.init bufEmpty
    (List.replicate 60 1) (List.replicate 128 2) 5000 5000
    (by norm_num [render_tag_size]) (by norm_num [kId3v1TagLength]) rfl
    (by norm_num [kId3v1TagLength]) (by norm_num)
    (by norm_num [kId3v1TagLength])).1

/-- C5: after a successful flush, `encode_finish` applies exactly one of
`truncate()` / `extend()` to the Buffer, `truncate` exactly when the size
cache is enabled (`params.statcachesize > 0`) and `extend` otherwise. -/
theorem c5_truncate_or_extend (p : Params) (enc : Mp3Encoder) (buf : Buffer)
    (fl : List Nat) (vbrTagSize : Nat) (vbrTagData : List Nat) :
    (encode_finish p enc buf (some fl) vbrTagSize
        vbrTagData).1.log.filter isResizeOp
      = buf.log.filter isResizeOp
        ++ [if 0 < p.statcachesize then BufOp.truncate else BufOp.extend] := by
  unfold encode_finish
  dsimp only
  split_ifs <;>
    simp [Buffer.write, Buffer.truncate, Buffer.extend, Buffer.write_to,
      isResizeOp, List.filter_append, List.filter]

/-- C4: after a successful flush with an in-range LAME tag frame,
`encode_finish` patches the summary block via `write_to` at absolute offset
`id3size_` exactly when variable bit-rate is configured; in fixed bit-rate
mode no `write_to` is issued and the region before the audio data (offsets 0
up to the ID3v2 tag size) is unchanged. -/
theorem c4_vbr_header_patch (p : Params) (enc : Mp3Encoder) (buf : Buffer)
    (fl : List Nat) (vbrTagSize : Nat) (vbrTagData : List Nat)
    (hsz : vbrTagSize ≤ kMaxVbrFrameSize)
    (hid1 : enc.id3size ≤ buf.data.length) (hid2 : enc.id3size ≤ buf.target) :
    (p.vbr ≠ 0 →
      (encode_finish p enc buf (some fl) vbrTagSize
          vbrTagData).1.log.filter isWriteTo
        = buf.log.filter isWriteTo ++ [BufOp.writeTo vbrTagData enc.id3size])
    ∧ (p.vbr = 0 →
      (encode_finish p enc buf (some fl) vbrTagSize
          vbrTagData).1.log.filter isWriteTo
        = buf.log.filter isWriteTo
      ∧ (encode_finish p enc buf (some fl) vbrTagSize
          vbrTagData).1.data.take enc.id3size
        = buf.data.take enc.id3size) := by
  constructor
  · intro hv
    unfold encode_finish
    dsimp only
    rw [if_pos hv, if_neg (not_lt.mpr hsz)]
    by_cases hs : 0 < p.statcachesize <;>
      simp [hs, Buffer.write, Buffer.truncate, Buffer.extend, Buffer.write_to,
        isWriteTo, List.filter_append, List.filter]
  · intro hv
    unfold encode_finish
    dsimp only
    rw [if_neg (by simp [hv])]
    constructor
    · by_cases hs : 0 < p.statcachesize <;>
        simp [hs, Buffer.write, Buffer.truncate, Buffer.extend,
          isWriteTo, List.filter_append, List.filter]
    · by_cases hs : 0 < p.statcachesize
      · rw [if_pos hs]
        dsimp only [Buffer.write, Buffer.truncate]
        rw [List.take_take, Nat.min_eq_left hid2,
          List.take_append_of_le_length hid1]
      · rw [if_neg hs]
        dsimp only [Buffer.write, Buffer.extend]
        rw [List.take_append_of_le_length
            (by rw [List.length_append]; omega),
          List.take_append_of_le_length hid1]

/-- An encoder fixture with a 10-byte rendered ID3v2 tag. -/
def encA : Mp3Encoder := { Mp3Encoder.init with id3size := 10 }

/-- A Buffer fixture holding 20 bytes with target length 30. -/
def bufA : Buffer := ⟨List.replicate 20 5, 30, []⟩

/-- Witness for C4 in a concrete VBR configuration: the log gains exactly the
`write_to` of the LAME tag frame at offset `id3size_`. -/
theorem c4_vbr_header_patch_witness :
    (encode_finish pVbr encA bufA (some [1, 2]) 100
        (List.replicate 2880 0)).1.log.filter isWriteTo
      = bufA.log.filter isWriteTo
        ++ [BufOp.writeTo (List.replicate 2880 0) encA.id3size] :=
  (c4_vbr_header_patch pVbr encA bufA [1, 2] 100 (List.replicate 2880 0)
    (by decide) (by decide) (by decide)).1 (by decide)

/-- C10: `encode_pcm_data` is atomic with respect to the Buffer: when the
backend encode call fails it returns -1 with the Buffer unchanged, and when
it succeeds it appends exactly the backend-reported output bytes and returns
0. -/
theorem c10_encode_pcm_atomic (enc : Mp3Encoder) (buf : Buffer)
    (dataL dataR : List Int) (sample_size : Nat)
    (lame_encode : List Int → List Int → Option (List Nat)) :
    (lame_encode (lbufOf sample_size dataL)
        (rbufOf enc.lame.num_channels sample_size dataL dataR) = none →
      encode_pcm_data enc buf dataL dataR sample_size lame_encode = (buf, -1))
    ∧ ∀ out, lame_encode (lbufOf sample_size dataL)
        (rbufOf enc.lame.num_channels sample_size dataL dataR) = some out →
      (encode_pcm_data enc buf dataL dataR sample_size lame_encode).1.data
          = buf.data ++ out
      ∧ (encode_pcm_data enc buf dataL dataR sample_size lame_encode).1.log
          = buf.log ++ [BufOp.append out false]
      ∧ (encode_pcm_data enc buf dataL dataR sample_size lame_encode).1.target
          = buf.target
      ∧ (encode_pcm_data enc buf dataL dataR sample_size lame_encode).2 = 0 := by
  constructor
  · intro h
    unfold encode_pcm_data
    rw [h]
  · intro out h
    unfold encode_pcm_data
    rw [h]
    exact ⟨rfl, rfl, rfl, rfl⟩

/-- Witness for C10 with a failing and a succeeding backend capability. -/
theorem c10_encode_pcm_atomic_witness :
    encode_pcm_data Mp3Encoder.init bufA [5, -3] [1, 2] 16 (fun _ _ => none)
      = (bufA, -1)
    ∧ (encode_pcm_data Mp3Encoder.init bufA [5, -3] [1, 2] 16
        (fun _ _ => some [9, 9])).1.data = bufA.data ++ [9, 9] :=
  ⟨(c10_encode_pcm_atomic Mp3Encoder.init bufA [5, -3] [1, 2] 16
      (fun _ _ => none)).1 rfl,
   ((c10_encode_pcm_atomic Mp3Encoder.init bufA [5, -3] [1, 2] 16
      (fun _ _ => some [9, 9])).2 [9, 9] rfl).1⟩
